import Mathlib

/-!
# opus_ctl_wrapper.c : the fixed-arity forwarder for `opus_encoder_ctl`

The source file contains one function,

    int opus_encoder_ctl_int(OpusEncoder *st, int request, int value) {
        return opus_encoder_ctl(st, request, value);
    }

The callee `opus_encoder_ctl(OpusEncoder *st, int request, ...)` belongs to the
external codec library.  It is not part of the repository, so the development
below is parametric in it: a `Library σ` is an arbitrary function of the handle,
the request code, the list of variadic arguments and the world `σ` (all memory
the library owns, encoder instances included).

A C computation is embedded as a function from the world before the call to a
`Run`: the library calls it performed, in order, together with its outcome
(a returned value and the world after, or a fault).

Values of C type `int` are the integers of the 32-bit range. The forwarder does
no arithmetic on them, so they are embedded in `Int` without a range
restriction, and every statement below holds in particular for every C `int`.
-/

namespace OpusCtlWrapper

/-- Pointer values (`OpusEncoder *`, `opus_int32 *`); address `0` is the null pointer. -/
abbrev Ptr := Nat

/-- The null pointer. -/
def NULL : Ptr := 0

/-- One argument in the variadic part of a call, after the default argument
promotions: an `int` or a pointer (the two shapes the codec's control requests use). -/
inductive VArg where
  | int (v : Int)
  | ptr (p : Ptr)
deriving DecidableEq, Repr

/-- One call of `opus_encoder_ctl` as the callee sees it: the two fixed arguments
and the list of variadic arguments. -/
structure CtlCall where
  st : Ptr
  request : Int
  args : List VArg
deriving DecidableEq, Repr

/-- How a C call ends: it returns `val` leaving the world `post`, or it does not
return normally (trap, undefined behaviour). -/
inductive Outcome (σ α : Type) where
  | ret (val : α) (post : σ)
  | fault
deriving DecidableEq, Repr

/-- The returned value, when the call returned. -/
def Outcome.retCode {σ α : Type} : Outcome σ α → Option α
  | .ret val _ => some val
  | .fault => none

/-- The world after the call, when the call returned. -/
def Outcome.postState {σ α : Type} : Outcome σ α → Option σ
  | .ret _ post => some post
  | .fault => none

/-- The wrapped library: `opus_encoder_ctl(st, request, ...)` as an arbitrary
function of its fixed arguments, its variadic arguments and the world. -/
structure Library (σ : Type) where
  opus_encoder_ctl : Ptr → Int → List VArg → σ → Outcome σ Int

/-- What running a C computation produces: the library calls made, in order, and
the outcome. -/
structure Run (σ α : Type) where
  calls : List CtlCall
  outcome : Outcome σ α
deriving DecidableEq, Repr

/-- A C computation over the world `σ` yielding an `α`. -/
abbrev Exec (σ α : Type) := σ → Run σ α

/-- The computation `return a;`: no call, the world is unchanged. -/
def Exec.ret {σ α : Type} (a : α) : Exec σ α :=
  fun w => ⟨[], Outcome.ret a w⟩

/-- Sequencing: run `m`, and when it returns feed its value to `k` in the world
`m` left; a fault in `m` ends the computation. -/
def Exec.bind {σ α β : Type} (m : Exec σ α) (k : α → Exec σ β) : Exec σ β :=
  fun w =>
    match m w with
    | ⟨cs, Outcome.ret a w1⟩ => ⟨cs ++ (k a w1).calls, (k a w1).outcome⟩
    | ⟨cs, Outcome.fault⟩ => ⟨cs, Outcome.fault⟩

/-- The call expression `opus_encoder_ctl(st, request, args...)`: one call of the
library's entry point, recorded in the run. -/
def callCtl {σ : Type} (L : Library σ) (st : Ptr) (request : Int) (args : List VArg) :
    Exec σ Int :=
  fun w => ⟨[⟨st, request, args⟩], L.opus_encoder_ctl st request args w⟩

/-- Source: `opus_ctl_wrapper.c`, lines 16-18.

    int opus_encoder_ctl_int(OpusEncoder *st, int request, int value) {
        return opus_encoder_ctl(st, request, value);
    }

`value` has type `int`, which the default argument promotions leave as it is, so
the variadic part of the call is the single `int` argument `value`. -/
def opus_encoder_ctl_int {σ : Type} (L : Library σ) (st : Ptr) (request value : Int) :
    Exec σ Int :=
  Exec.bind (callCtl L st request [VArg.int value]) fun code => Exec.ret code

/-- The comparison point the specification names: `opus_encoder_ctl` invoked
directly, from C, with the same three arguments `(st, request, value)`. -/
def opus_encoder_ctl_direct {σ : Type} (L : Library σ) (st : Ptr) (request value : Int) :
    Exec σ Int :=
  callCtl L st request [VArg.int value]

/-- Modelled from the spec: the library's return-code convention (its header is
not in the repository): "zero or positive for success". -/
def isSuccess (code : Int) : Prop := 0 ≤ code

/-- Modelled from the spec: the library's return-code convention: "a negative
code for failure". -/
def isError (code : Int) : Prop := code < 0

instance (code : Int) : Decidable (isSuccess code) := by unfold isSuccess; infer_instance

instance (code : Int) : Decidable (isError code) := by unfold isError; infer_instance

/-- Performing a sequence of `(request, value)` control operations one after the
other through `step`, each in the world the previous one left: the return codes
obtained, in order, and the final world (`none` when a call faulted, which ends
the sequence). -/
def runSeq {σ : Type} (step : Int → Int → Exec σ Int) :
    List (Int × Int) → σ → List Int × Option σ
  | [], w => ([], some w)
  | (request, value) :: rest, w =>
    match (step request value w).outcome with
    | Outcome.ret code w1 => (code :: (runSeq step rest w1).1, (runSeq step rest w1).2)
    | Outcome.fault => ([], none)

/-- A library that observes its own invocations: its world is the list of calls
its entry point has received so far, each invocation appends the arguments it
was given, and the code it returns is `answer` of those arguments. -/
def recordingLib (answer : CtlCall → Int) : Library (List CtlCall) :=
  ⟨fun st request args received =>
    Outcome.ret (answer ⟨st, request, args⟩) (received ++ [⟨st, request, args⟩])⟩

/-! ## A small concrete library

An instance of `Library` with one encoder, used to evaluate the forwarder on
concrete inputs. It follows the shape of the codec's control operation: request
`4002` takes an `int` and sets the bitrate, request `4003` takes a pointer and
stores the bitrate through it, any other request is answered with the
"unimplemented" error code. -/

/-- World of the demonstration library: one encoder at address `enc` with its
configured bitrate and channel count, and one `int` cell at address `cellAddr`. -/
structure DemoWorld where
  enc : Ptr
  channels : Int
  bitrate : Int
  cellAddr : Ptr
  cell : Int
deriving DecidableEq, Repr

/-- Reading the `int` stored at address `p`. -/
def DemoWorld.load (w : DemoWorld) (p : Ptr) : Option Int :=
  if p = w.cellAddr then some w.cell else none

/-- The demonstration library's control operation. A handle that is not the
constructed encoder (null included) faults. -/
def demoCtl (st : Ptr) (request : Int) (args : List VArg) (w : DemoWorld) :
    Outcome DemoWorld Int :=
  if st = NULL ∨ st ≠ w.enc then Outcome.fault
  else if request = 4002 then
    match args with
    | VArg.int v :: _ =>
      if v ≤ 0 then Outcome.ret (-1) w
      else if v ≤ 500 then Outcome.ret 0 { w with bitrate := 500 }
      else if v > 300000 * w.channels then
        Outcome.ret 0 { w with bitrate := 300000 * w.channels }
      else Outcome.ret 0 { w with bitrate := v }
    | _ => Outcome.fault
  else if request = 4003 then
    match args with
    | VArg.ptr p :: _ =>
      if p = w.cellAddr then Outcome.ret 0 { w with cell := w.bitrate }
      else Outcome.fault
    | _ => Outcome.fault
  else Outcome.ret (-5) w

/-- The demonstration library. -/
def demoLib : Library DemoWorld := ⟨demoCtl⟩

/-- The bitrate getter of the demonstration library, as a client uses it: the
get-bitrate request with a pointer to an `int` cell, then a read of that cell. -/
def demoGetBitrate (st : Ptr) (w : DemoWorld) : Option Int :=
  match (callCtl demoLib st 4003 [VArg.ptr w.cellAddr] w).outcome with
  | Outcome.ret code w1 => if 0 ≤ code then w1.load w.cellAddr else none
  | Outcome.fault => none

/-- A world with a freshly constructed stereo encoder at address `16`. -/
def demoWorld : DemoWorld :=
  { enc := 16, channels := 2, bitrate := 32000, cellAddr := 64, cell := 0 }

/-! ## Basic facts about the forwarder -/

theorem opus_encoder_ctl_int_run {σ : Type} (L : Library σ) (st : Ptr)
    (request value : Int) (w : σ) :
    opus_encoder_ctl_int L st request value w =
      ⟨[⟨st, request, [VArg.int value]⟩], L.opus_encoder_ctl st request [VArg.int value] w⟩ := by
  unfold opus_encoder_ctl_int Exec.bind callCtl
  cases h : L.opus_encoder_ctl st request [VArg.int value] w <;> simp [Exec.ret]

theorem opus_encoder_ctl_int_eq_direct {σ : Type} (L : Library σ) (st : Ptr)
    (request value : Int) :
    opus_encoder_ctl_int L st request value = opus_encoder_ctl_direct L st request value := by
  funext w
  rw [opus_encoder_ctl_int_run]
  rfl

/-- The forwarder evaluated on the demonstration library: setting the bitrate of
the constructed encoder succeeds and stores the value. -/
theorem demo_set_bitrate :
    (opus_encoder_ctl_int demoLib 16 4002 64000 demoWorld).outcome =
      Outcome.ret 0 { demoWorld with bitrate := 64000 } := by
  decide

/-- The forwarder evaluated on the demonstration library: an unrecognised
request is answered with the library's error code. -/
theorem demo_unknown_request :
    (opus_encoder_ctl_int demoLib 16 9999 7 demoWorld).outcome = Outcome.ret (-5) demoWorld := by
  decide

/-- The forwarder evaluated on the demonstration library: a null handle reaches
the library, whose fault is the outcome. -/
theorem demo_null_handle :
    opus_encoder_ctl_int demoLib NULL 4002 64000 demoWorld =
      ⟨[⟨NULL, 4002, [VArg.int 64000]⟩], Outcome.fault⟩ := by
  decide

/-- In the demonstration library a set-bitrate request on the constructed
encoder with a value in the unclamped range succeeds, and the getter then reads
that value. -/
theorem demo_set_then_get (st : Ptr) (v : Int) (w : DemoWorld)
    (h : st ≠ NULL ∧ st = w.enc ∧ 500 < v ∧ v ≤ 300000 * w.channels) :
    ∃ code w1, demoLib.opus_encoder_ctl st 4002 [VArg.int v] w = Outcome.ret code w1 ∧
      isSuccess code ∧ demoGetBitrate st w1 = some v := by
  obtain ⟨hnull, henc, hlo, hhi⟩ := h
  have h0 : ¬ v ≤ 0 := by omega
  have h500 : ¬ v ≤ 500 := by omega
  have hmax : ¬ v > 300000 * w.channels := by omega
  subst henc
  refine ⟨0, { w with bitrate := v }, ?_, ?_, ?_⟩
  · simp [demoLib, demoCtl, hnull, h0, h500, hmax]
  · simp [isSuccess]
  · simp [demoGetBitrate, callCtl, demoLib, demoCtl, hnull, DemoWorld.load]

/-! ## The claims -/

/-- C1, pass-through correctness: for every library, handle, request, value and
world, the forwarder returns exactly the return code that `opus_encoder_ctl`
returns when invoked directly with the same three arguments (and returns none
exactly when the direct call returns none). -/
theorem passthrough_return_code {σ : Type} (L : Library σ) (st : Ptr)
    (request value : Int) (w : σ) :
    (opus_encoder_ctl_int L st request value w).outcome.retCode =
        (opus_encoder_ctl_direct L st request value w).outcome.retCode ∧
      (opus_encoder_ctl_int L st request value w).outcome.retCode =
        (L.opus_encoder_ctl st request [VArg.int value] w).retCode := by
  rw [opus_encoder_ctl_int_run]
  exact ⟨rfl, rfl⟩

/-- C2, non-interference: for every library, handle, request, value and initial
world, the world that results from the forwarder is the world that results from
calling `opus_encoder_ctl` directly on the same initial world. -/
theorem non_interference {σ : Type} (L : Library σ) (st : Ptr)
    (request value : Int) (w : σ) :
    (opus_encoder_ctl_int L st request value w).outcome.postState =
        (opus_encoder_ctl_direct L st request value w).outcome.postState ∧
      (opus_encoder_ctl_int L st request value w).outcome.postState =
        (L.opus_encoder_ctl st request [VArg.int value] w).postState := by
  rw [opus_encoder_ctl_int_run]
  exact ⟨rfl, rfl⟩

/-- C3, error propagation: whenever the direct call returns a negative code `e`
the forwarder returns that same `e`; the forwarder's result is negative if and
only if the direct call's result is negative; and every negative code the
forwarder returns is one the library returned for that call. -/
theorem error_propagation {σ : Type} (L : Library σ) (st : Ptr)
    (request value : Int) (w : σ) :
    (∀ e : Int, isError e →
        (opus_encoder_ctl_direct L st request value w).outcome.retCode = some e →
        (opus_encoder_ctl_int L st request value w).outcome.retCode = some e) ∧
      ((∃ e, (opus_encoder_ctl_int L st request value w).outcome.retCode = some e ∧ isError e) ↔
        (∃ e, (opus_encoder_ctl_direct L st request value w).outcome.retCode = some e ∧
          isError e)) ∧
      (∀ e : Int, isError e →
        (opus_encoder_ctl_int L st request value w).outcome.retCode = some e →
        (L.opus_encoder_ctl st request [VArg.int value] w).retCode = some e) := by
  rw [opus_encoder_ctl_int_eq_direct]
  exact ⟨fun _ _ h => h, Iff.rfl, fun _ _ h => h⟩

/-- Witness for C3 on the demonstration library: the unrecognised request `9999`
makes the direct call return `-5`, and the forwarder returns `-5`. -/
theorem error_propagation_witness :
    isError (-5) ∧
      (opus_encoder_ctl_direct demoLib 16 9999 7 demoWorld).outcome.retCode = some (-5) ∧
      (opus_encoder_ctl_int demoLib 16 9999 7 demoWorld).outcome.retCode = some (-5) :=
  ⟨by decide, by decide,
    (error_propagation demoLib 16 9999 7 demoWorld).1 (-5) (by decide) (by decide)⟩

/-- C4, set-bitrate scenario: for every library in which the set-bitrate request
`setReq` with an accepted value returns a success code and stores the value so
that the library's bitrate getter `getBitrate` returns it, the forwarder called
on a constructed encoder with `setReq` and the value `64000` returns a success
code, and the getter then reads `64000`. -/
theorem set_bitrate_scenario {σ : Type} (L : Library σ) (setReq : Int)
    (getBitrate : Ptr → σ → Option Int) (accepted : Ptr → Int → σ → Prop)
    (hset : ∀ st v w, accepted st v w →
      ∃ code w1, L.opus_encoder_ctl st setReq [VArg.int v] w = Outcome.ret code w1 ∧
        isSuccess code ∧ getBitrate st w1 = some v)
    (st : Ptr) (w : σ) (hacc : accepted st 64000 w) :
    ∃ code w1, (opus_encoder_ctl_int L st setReq 64000 w).outcome = Outcome.ret code w1 ∧
      isSuccess code ∧ getBitrate st w1 = some 64000 := by
  rw [opus_encoder_ctl_int_run]
  exact hset st 64000 w hacc

/-- Witness for C4: the demonstration library meets the scenario's assumption, and
on its constructed encoder the forwarder sets `64000` and the getter reads it. -/
theorem set_bitrate_scenario_witness :
    ∃ code w1, (opus_encoder_ctl_int demoLib 16 4002 64000 demoWorld).outcome =
        Outcome.ret code w1 ∧
      isSuccess code ∧ demoGetBitrate 16 w1 = some 64000 :=
  set_bitrate_scenario demoLib 4002 demoGetBitrate
    (fun st v w => st ≠ NULL ∧ st = w.enc ∧ 500 < v ∧ v ≤ 300000 * w.channels)
    demo_set_then_get 16 demoWorld (by decide)

/-- C6, argument shape of the forwarded call: for every library, handle, request,
value and world, the forwarder invokes `opus_encoder_ctl` exactly once, with
`st` and `request` unchanged as the fixed arguments and with the one-element
variadic list `[value]`, the value being the same `int`. The run is the single
recorded call together with the library's own result on exactly those
arguments; and a library that records what its entry point receives has
received, after the forwarder, that one call and nothing else, and the code it
answered for it is the code returned. -/
theorem forwarded_call_shape {σ : Type} (L : Library σ) (st : Ptr)
    (request value : Int) (w : σ) (answer : CtlCall → Int) (received : List CtlCall) :
    (opus_encoder_ctl_int L st request value w).calls = [⟨st, request, [VArg.int value]⟩] ∧
      (opus_encoder_ctl_int L st request value w).calls.length = 1 ∧
      ((opus_encoder_ctl_int L st request value w).calls.map fun c => c.args.length) = [1] ∧
      (opus_encoder_ctl_int L st request value w).outcome =
        L.opus_encoder_ctl st request [VArg.int value] w ∧
      (opus_encoder_ctl_int (recordingLib answer) st request value received).outcome =
        Outcome.ret (answer ⟨st, request, [VArg.int value]⟩)
          (received ++ [⟨st, request, [VArg.int value]⟩]) := by
  rw [opus_encoder_ctl_int_run, opus_encoder_ctl_int_run]
  exact ⟨rfl, rfl, rfl, rfl, rfl⟩

/-- C7, no local validation or failure: for every input (null handle,
unrecognised request and out-of-range value included) the forwarder reaches the
library with the inputs as given, its outcome is exactly the library's outcome
for those inputs, and it faults exactly when the library does. -/
theorem no_local_failure {σ : Type} (L : Library σ) (st : Ptr)
    (request value : Int) (w : σ) :
    (opus_encoder_ctl_int L st request value w).outcome =
        L.opus_encoder_ctl st request [VArg.int value] w ∧
      ⟨st, request, [VArg.int value]⟩ ∈ (opus_encoder_ctl_int L st request value w).calls ∧
      ((opus_encoder_ctl_int L st request value w).outcome = Outcome.fault ↔
        L.opus_encoder_ctl st request [VArg.int value] w = Outcome.fault) ∧
      (opus_encoder_ctl_int L NULL request value w).outcome =
        L.opus_encoder_ctl NULL request [VArg.int value] w := by
  rw [opus_encoder_ctl_int_run, opus_encoder_ctl_int_run]
  exact ⟨rfl, List.mem_singleton.mpr rfl, Iff.rfl, rfl⟩

/-- C8, statelessness across calls: for every library, initial world and finite
sequence of `(request, value)` pairs, performing the sequence through the
forwarder yields the same list of return codes and the same final world as
performing it through direct calls; and two forwarder calls with equal arguments
from equal worlds give equal return codes and equal resulting worlds. -/
theorem stateless_sequences {σ : Type} (L : Library σ) (st : Ptr)
    (reqs : List (Int × Int)) (w : σ)
    (st1 st2 : Ptr) (request1 request2 value1 value2 : Int) (w1 w2 : σ)
    (hst : st1 = st2) (hrequest : request1 = request2) (hvalue : value1 = value2)
    (hw : w1 = w2) :
    runSeq (opus_encoder_ctl_int L st) reqs w = runSeq (opus_encoder_ctl_direct L st) reqs w ∧
      (opus_encoder_ctl_int L st1 request1 value1 w1).outcome.retCode =
        (opus_encoder_ctl_int L st2 request2 value2 w2).outcome.retCode ∧
      (opus_encoder_ctl_int L st1 request1 value1 w1).outcome.postState =
        (opus_encoder_ctl_int L st2 request2 value2 w2).outcome.postState := by
  subst hst hrequest hvalue hw
  refine ⟨?_, rfl, rfl⟩
  induction reqs generalizing w with
  | nil => rfl
  | cons p rest ih =>
    obtain ⟨request, value⟩ := p
    simp only [runSeq, opus_encoder_ctl_int_eq_direct]
    cases (opus_encoder_ctl_direct L st request value w).outcome with
    | ret code w1 => simp only [ih w1]
    | fault => rfl

/-- Witness for C8 on the demonstration library: a set-bitrate request, an
unrecognised request and a rejected value, performed in sequence. -/
theorem stateless_sequences_witness :
    runSeq (opus_encoder_ctl_int demoLib 16) [(4002, 64000), (9999, 1), (4002, -3)] demoWorld =
        runSeq (opus_encoder_ctl_direct demoLib 16) [(4002, 64000), (9999, 1), (4002, -3)]
          demoWorld ∧
      (opus_encoder_ctl_int demoLib 16 4002 64000 demoWorld).outcome.retCode =
        (opus_encoder_ctl_int demoLib 16 4002 64000 demoWorld).outcome.retCode ∧
      (opus_encoder_ctl_int demoLib 16 4002 64000 demoWorld).outcome.postState =
        (opus_encoder_ctl_int demoLib 16 4002 64000 demoWorld).outcome.postState :=
  stateless_sequences demoLib 16 [(4002, 64000), (9999, 1), (4002, -3)] demoWorld
    16 16 4002 4002 64000 64000 demoWorld demoWorld rfl rfl rfl rfl

/-- The sequence of the C8 witness, evaluated: the three return codes and the
final world. -/
theorem demo_sequence :
    runSeq (opus_encoder_ctl_int demoLib 16) [(4002, 64000), (9999, 1), (4002, -3)] demoWorld =
      ([0, -5, -1], some { demoWorld with bitrate := 64000 }) := by
  decide

end OpusCtlWrapper
